import Mathlib

/-!
Verification development for the PIC32CX2051MTG flash-programming driver
(`flashd.c` / `efc.c`).  The driver's pure arithmetic (address translation,
lock-range alignment) is embedded directly; the stateful parts (page-buffered
write, lock/unlock loops, GPNVM bits, command polling) are embedded as
explicit state-passing functions over an abstract flash memory, an abstract
command-error oracle and an event log of hardware accesses.  Machine
integers are `Nat` with explicit `% 2^16` / `% 2^32` truncation at the
points where the C code narrows to `uint16_t` / `uint32_t`.
-/

namespace FlashAlgo

/-! ### Chip geometry constants (efc.h, `CPU_PIC32CX2051MTG` branch) -/

def IFLASH_PAGE_SIZE : Nat := 512
def IFLASH_SECTOR_SIZE : Nat := 131072
def IFLASH_LOCK_REGION_SIZE : Nat := 8192
def IFLASH_NB_OF_PAGES : Nat := 4096
def IFLASH_NB_OF_LOCK_BITS : Nat := 256

/-- `GPNVM_NUM_MAX` from flashd.c. -/
def GPNVM_NUM_MAX : Nat := 9

/-- Modelled from the spec: the device header `pic32cx2051mtg64.h` that
defines `IFLASH0_CNC_ADDR` is not under src/.  The flash base address is
taken from the `FlashDevice` descriptor in FlashDev.c ("Device Start
Address" `0x01000000`). -/
def IFLASH0_CNC_ADDR : Nat := 0x01000000

/-- Modelled from the spec: the device header `pic32cx2051mtg64.h` that
defines `IFLASH_SIZE` is not under src/.  The total flash size is taken
from the `FlashDevice` descriptor in FlashDev.c ("Device Size"
`0x00200000`), consistent with `IFLASH_NB_OF_PAGES * IFLASH_PAGE_SIZE`. -/
def IFLASH_SIZE : Nat := 0x00200000

/-! ### Flash controller command codes (efc.h) -/

def SEFC_FCMD_GETD : Nat := 0x00
def SEFC_FCMD_WP : Nat := 0x01
def SEFC_FCMD_EA : Nat := 0x05
def SEFC_FCMD_SLB : Nat := 0x08
def SEFC_FCMD_CLB : Nat := 0x09
def SEFC_FCMD_GLB : Nat := 0x0A
def SEFC_FCMD_SGPB : Nat := 0x0B
def SEFC_FCMD_CGPB : Nat := 0x0C
def SEFC_FCMD_GGPB : Nat := 0x0D
def SEFC_FCMD_STUI : Nat := 0x0E
def SEFC_FCMD_SPUI : Nat := 0x0F
def SEFC_FCMD_ES : Nat := 0x11

/-- Modelled from the spec: `EEFC_FSR_FRDY` comes from the missing device
header; the ready flag of the status register (bit 0 of `EEFC_FSR`). -/
def EEFC_FSR_FRDY : Nat := 1

/-- Modelled from the spec: `EEFC_FSR_FCMDE`, the command-error status bit
(bit 1 of `EEFC_FSR`), from the missing device header. -/
def EEFC_FSR_FCMDE : Nat := 2

/-- Modelled from the spec: `EEFC_FSR_FLOCKE`, the lock-violation status bit
(bit 2 of `EEFC_FSR`), from the missing device header. -/
def EEFC_FSR_FLOCKE : Nat := 4

/-- Modelled from the spec: `EEFC_FSR_FLERR`, the lock-bit-error status bit
(bit 3 of `EEFC_FSR`), from the missing device header. -/
def EEFC_FSR_FLERR : Nat := 8

/-- Modelled from the spec: the fixed flash-command unlock key
(`EEFC_FCR_FKEY_PASSWD`, `0x5A` in bits 24..31), from the missing device
header. -/
def EEFC_FCR_FKEY_PASSWD : Nat := 0x5A000000

/-- Modelled from the spec: the 16-bit argument field of `EEFC_FCR`
(bits 8..23), from the missing device header. -/
def EEFC_FCR_FARG (v : Nat) : Nat := (v % 65536) <<< 8

/-- Modelled from the spec: the 8-bit command field of `EEFC_FCR`
(bits 0..7), from the missing device header. -/
def EEFC_FCR_FCMD (v : Nat) : Nat := v % 256

/-- The error mask returned by `SEFC_PerformCommand`:
`EEFC_FSR_FLOCKE | EEFC_FSR_FCMDE | EEFC_FSR_FLERR` (efc.c lines 260, 273). -/
def SEFC_ERROR_BITS : Nat := EEFC_FSR_FLOCKE ||| EEFC_FSR_FCMDE ||| EEFC_FSR_FLERR

/-! ### Address translation (efc.c, `SEFC_TranslateAddress` /
`SEFC_ComputeAddress`, single-bank `#else` branch: `EFC1` is not defined
for this single-controller 2 MB part, whose 256 lock bits all belong to
`SEFC0`). -/

/-- The page number stored through `*pwPage` by `SEFC_TranslateAddress`
(efc.c line 190): `(dwAddress - IFLASH0_CNC_ADDR) / IFLASH_PAGE_SIZE`,
narrowed to `uint16_t`. -/
def SEFC_TranslateAddress_page (dwAddress : Nat) : Nat :=
  ((dwAddress - IFLASH0_CNC_ADDR) / IFLASH_PAGE_SIZE) % 65536

/-- The byte offset stored through `*pwOffset` by `SEFC_TranslateAddress`
(efc.c line 195): `(dwAddress - IFLASH0_CNC_ADDR) % IFLASH_PAGE_SIZE`,
narrowed to `uint16_t`. -/
def SEFC_TranslateAddress_offset (dwAddress : Nat) : Nat :=
  ((dwAddress - IFLASH0_CNC_ADDR) % IFLASH_PAGE_SIZE) % 65536

/-- The conjunction of the two `assert`s guarding `SEFC_TranslateAddress`
(efc.c lines 156-157): `dwAddress >= IFLASH0_CNC_ADDR` and
`dwAddress <= IFLASH0_CNC_ADDR + IFLASH_SIZE`. -/
def SEFC_TranslateAddress_assertOk (dwAddress : Nat) : Bool :=
  decide (IFLASH0_CNC_ADDR ≤ dwAddress) &&
  decide (dwAddress ≤ IFLASH0_CNC_ADDR + IFLASH_SIZE)

/-- `SEFC_ComputeAddress` (efc.c line 224, single-bank branch):
`IFLASH0_CNC_ADDR + wPage * IFLASH_PAGE_SIZE + wOffset` on `uint16_t`
inputs, computed in `uint32_t`. -/
def SEFC_ComputeAddress (wPage wOffset : Nat) : Nat :=
  (IFLASH0_CNC_ADDR + (wPage % 65536) * IFLASH_PAGE_SIZE + (wOffset % 65536)) % 4294967296

/-- The (vacuous) `assert` of `FLASHD_Erase` and `FLASHD_EraseSector`
(flashd.c lines 183, 206): `(dwAddress >= IFLASH0_CNC_ADDR) ||`
`(dwAddress <= IFLASH0_CNC_ADDR + IFLASH_SIZE)` — note `||`, not `&&`. -/
def FLASHD_Erase_assertOk (dwAddress : Nat) : Bool :=
  decide (IFLASH0_CNC_ADDR ≤ dwAddress) ||
  decide (dwAddress ≤ IFLASH0_CNC_ADDR + IFLASH_SIZE)

/-- The two `assert`s of `FLASHD_Write` about the address range
(flashd.c lines 295-296): `dwAddress >= IFLASH0_CNC_ADDR` and
`(dwAddress + dwSize) <= IFLASH0_CNC_ADDR + IFLASH_SIZE`, the sum taken in
`uint32_t`. -/
def FLASHD_Write_assertOk (dwAddress dwSize : Nat) : Bool :=
  decide (IFLASH0_CNC_ADDR ≤ dwAddress) &&
  decide ((dwAddress + dwSize) % 4294967296 ≤ IFLASH0_CNC_ADDR + IFLASH_SIZE)

/-! ### Lock-range computation (flashd.c, `ComputeLockRange`) -/

/-- `ComputeLockRange` (flashd.c lines 118-144): translate both addresses
to page numbers, round the start page down and the end page up to
`wNumPagesInRegion = IFLASH_LOCK_REGION_SIZE / IFLASH_PAGE_SIZE` pages,
and convert the aligned pages back to addresses (offset 0). -/
def ComputeLockRange (dwStart dwEnd : Nat) : Nat × Nat :=
  let wStartPage := SEFC_TranslateAddress_page dwStart
  let wEndPage := SEFC_TranslateAddress_page dwEnd
  let wNumPagesInRegion := IFLASH_LOCK_REGION_SIZE / IFLASH_PAGE_SIZE
  let wActualStartPage := (wStartPage - wStartPage % wNumPagesInRegion) % 65536
  let wActualEndPage :=
    if wEndPage % wNumPagesInRegion ≠ 0 then
      (wEndPage + (wNumPagesInRegion - wEndPage % wNumPagesInRegion)) % 65536
    else wEndPage
  (SEFC_ComputeAddress wActualStartPage 0, SEFC_ComputeAddress wActualEndPage 0)

/-! ### Command execution (efc.c, `SEFC_PerformCommand`) -/

/-- The encoded command word written to `EEFC_FCR` (efc.c lines 253, 266):
`EEFC_FCR_FKEY_PASSWD | EEFC_FCR_FARG(dwArgument) | EEFC_FCR_FCMD(dwCommand)`. -/
def encodeFcr (dwCommand dwArgument : Nat) : Nat :=
  EEFC_FCR_FKEY_PASSWD ||| EEFC_FCR_FARG dwArgument ||| EEFC_FCR_FCMD dwCommand

/-- The busy-poll loop of `SEFC_PerformCommand` (efc.c lines 267-271):
read `EEFC_FSR` repeatedly until the ready flag is set, returning the
status word read at completion.  The hardware is abstracted as the finite
list of successive `EEFC_FSR` reads it would deliver; `none` models the
case where the ready flag never asserts, in which the C loop does not
terminate. -/
def pollFrdy : List Nat → Option Nat
  | [] => none
  | s :: rest =>
    if s &&& EEFC_FSR_FRDY = EEFC_FSR_FRDY then some s else pollFrdy rest

/-- Direct-register path of `SEFC_PerformCommand` (efc.c lines 262-274,
`dwUseIAP == 0`): write the encoded command word to `EEFC_FCR`, busy-poll
`EEFC_FSR` until the ready flag is set, and return the completion status
masked to `EEFC_FSR_FLOCKE | EEFC_FSR_FCMDE | EEFC_FSR_FLERR`.  The first
component is the command word written, the second the (possibly
non-terminating) return value. -/
def SEFC_PerformCommand_direct (dwCommand dwArgument : Nat) (trace : List Nat) :
    Nat × Option Nat :=
  (encodeFcr dwCommand dwArgument,
   (pollFrdy trace).map (fun s => s &&& SEFC_ERROR_BITS))

/-- IAP path of `SEFC_PerformCommand` (efc.c lines 246-261,
`dwUseIAP != 0`): invoke the opaque ROM trampoline with the encoded
command word, then return `EEFC_FSR` — sampled once, with no ready-flag
wait — masked to the three error bits.  `statusAfter` is the status
register value observed after the trampoline returns. -/
def SEFC_PerformCommand_iap (dwCommand dwArgument statusAfter : Nat) : Nat × Nat :=
  (encodeFcr dwCommand dwArgument, statusAfter &&& SEFC_ERROR_BITS)

/-! ### Unique-ID read (flashd.c, `FLASHD_ReadUniqueID`) -/

/-- `FLASHD_ReadUniqueID` (flashd.c lines 570-619).  `isNull` models a
NULL `pdwUniqueID` pointer; `mem` is the flash address window the four ID
words are read from while unique-ID mode is active; `trace` is the list of
`EEFC_FSR` reads delivered by the final ready-wait after the stop command.
Result: `none` if the final ready-wait never completes, otherwise
`(return code, command words written to EEFC_FCR, output words)`. -/
def FLASHD_ReadUniqueID (isNull : Bool) (mem : Nat → Nat) (trace : List Nat) :
    Option (Nat × List Nat × List Nat) :=
  if isNull then some (1, [], [])
  else
    match pollFrdy trace with
    | none => none
    | some _ =>
      some (0,
        [EEFC_FCR_FKEY_PASSWD ||| SEFC_FCMD_STUI,
         EEFC_FCR_FKEY_PASSWD ||| SEFC_FCMD_SPUI],
        [mem IFLASH0_CNC_ADDR, mem (IFLASH0_CNC_ADDR + 4),
         mem (IFLASH0_CNC_ADDR + 8), mem (IFLASH0_CNC_ADDR + 12)])

/-! ### GPNVM bits (flashd.c, `FLASHD_IsGPNVMSet` / `FLASHD_SetGPNVM` /
`FLASHD_ClearGPNVM`) -/

/-- Abstract controller state for the GPNVM operations: the GPNVM bit
word, the result register `EEFC_FRR`, and the log of commands issued
(command code, argument). -/
structure GpnvmState where
  bits : Nat
  frr : Nat
  log : List (Nat × Nat)
deriving DecidableEq

/-- Modelled from the spec: the hardware effect of the GPNVM commands
(the controller itself is behind the missing device header).  Per the
spec, get-GPNVM-bits latches the bit word into the result register,
set-GPNVM-bit sets bit `arg`, clear-GPNVM-bit clears bit `arg`; each
command is appended to the log and (these commands) completes with error
code 0. -/
def gpnvmPerform (st : GpnvmState) (cmd arg : Nat) : GpnvmState × Nat :=
  if cmd = SEFC_FCMD_GGPB then
    ({ st with frr := st.bits, log := st.log ++ [(cmd, arg)] }, 0)
  else if cmd = SEFC_FCMD_SGPB then
    ({ st with bits := st.bits ||| (1 <<< arg), log := st.log ++ [(cmd, arg)] }, 0)
  else if cmd = SEFC_FCMD_CGPB then
    let newBits := if st.bits.testBit arg then st.bits ^^^ (1 <<< arg) else st.bits
    ({ st with bits := newBits, log := st.log ++ [(cmd, arg)] }, 0)
  else (st, 0)

/-- `FLASHD_IsGPNVMSet` (flashd.c lines 503-522): issue get-GPNVM-bits,
read the result register, and return 1 if bit `usGPVM` is set, else 0
(the command's error code is ignored by the source). -/
def FLASHD_IsGPNVMSet (st : GpnvmState) (usGPVM : Nat) : GpnvmState × Nat :=
  let r := gpnvmPerform st SEFC_FCMD_GGPB 0
  let dwStatus := r.1.frr
  (r.1, if dwStatus &&& (1 <<< usGPVM) ≠ 0 then 1 else 0)

/-- `FLASHD_SetGPNVM` (flashd.c lines 530-542): if the bit is not set,
issue set-GPNVM-bit with the index as argument and return its error code;
otherwise return 0. -/
def FLASHD_SetGPNVM (st : GpnvmState) (usGPVM : Nat) : GpnvmState × Nat :=
  let q := FLASHD_IsGPNVMSet st usGPVM
  if q.2 = 0 then gpnvmPerform q.1 SEFC_FCMD_SGPB usGPVM
  else (q.1, 0)

/-- `FLASHD_ClearGPNVM` (flashd.c lines 550-562): if the bit is set,
issue clear-GPNVM-bit with the index as argument and return its error
code; otherwise return 0. -/
def FLASHD_ClearGPNVM (st : GpnvmState) (usGPVM : Nat) : GpnvmState × Nat :=
  let q := FLASHD_IsGPNVMSet st usGPVM
  if q.2 ≠ 0 then gpnvmPerform q.1 SEFC_FCMD_CGPB usGPVM
  else (q.1, 0)

/-! ### Buffered page write (flashd.c, `FLASHD_Write`) -/

/-- A hardware access performed by the write loop: a 32-bit store of word
`idx` of the staging buffer into the page-write window of `page`, or a
command (code, argument) issued through `SEFC_PerformCommand`. -/
inductive Ev where
  | store : Nat → Nat → Ev
  | cmd : Nat → Nat → Ev
deriving DecidableEq

/-- The staging buffer `_pdwPageBuffer` as rebuilt by one iteration of the
write loop (flashd.c lines 313-320): bytes `[0, offset)` are copied from
the existing page content, bytes `[offset, offset+writeSize)` from the
caller's buffer, and the remaining `padding` bytes again from the existing
page content.  `flash` maps (page, byte offset in page) to the byte
stored there. -/
def stagePage (flash : Nat → Nat → Nat) (buf : List Nat) (page offset writeSize : Nat) :
    Nat → Nat :=
  fun i =>
    if i < offset then flash page i
    else if i < offset + writeSize then buf.getD (i - offset) 0
    else flash page i

/-- Modelled from the spec: the hardware effect of a write-page command
that completes without error (the controller is behind the missing device
header).  The `IFLASH_PAGE_SIZE` staged bytes, previously stored to the
page-write window word by word (flashd.c lines 325-328), replace the
content of `page`; all other pages are untouched. -/
def commitPage (flash : Nat → Nat → Nat) (page : Nat) (stage : Nat → Nat) :
    Nat → Nat → Nat :=
  fun p i => if p = page ∧ i < IFLASH_PAGE_SIZE then stage i else flash p i

/-- The hardware accesses of one iteration of the write loop:
`IFLASH_PAGE_SIZE / 4` word-sized stores of the staging buffer (flashd.c
lines 325-328) followed by one write-page command with the current page
number as argument (line 336). -/
def iterEvents (page : Nat) : List Ev :=
  ((List.range (IFLASH_PAGE_SIZE / 4)).map (Ev.store page)) ++ [Ev.cmd SEFC_FCMD_WP page]

/-- The `while (dwSize > 0)` loop of `FLASHD_Write` (flashd.c lines
302-347).  `wp page` is the error code returned by
`SEFC_PerformCommand(SEFC_FCMD_WP, page)`.  Each iteration takes
`writeSize = min(IFLASH_PAGE_SIZE - offset, dwSize)` bytes, stages the
page, stores it to the write window, issues the write-page command and —
on error — returns that code at once; otherwise it advances the buffer by
`writeSize`, increments the (16-bit) page number and continues with offset
0.  `fuel` bounds the number of iterations; since every iteration consumes
at least one byte whenever `offset < IFLASH_PAGE_SIZE` (which
`SEFC_TranslateAddress` guarantees at entry and the loop re-establishes
with offset 0), `fuel = dwSize` suffices and the fuel-exhausted branch is
unreachable from `FLASHD_Write`.  Result: (return code, final flash
contents, event log). -/
def FLASHD_WriteLoop (wp : Nat → Nat) :
    Nat → (Nat → Nat → Nat) → List Nat → Nat → Nat → Nat →
    Nat × (Nat → Nat → Nat) × List Ev
  | _, flash, _, _, _, 0 => (0, flash, [])
  | 0, flash, _, _, _, _ + 1 => (0, flash, [])
  | fuel + 1, flash, buf, page, offset, size + 1 =>
    let writeSize := min (IFLASH_PAGE_SIZE - offset) (size + 1)
    let stage := stagePage flash buf page offset writeSize
    let err := wp page
    if err ≠ 0 then (err, flash, iterEvents page)
    else
      let flash2 := commitPage flash page stage
      let rest := FLASHD_WriteLoop wp fuel flash2 (buf.drop writeSize)
        ((page + 1) % 65536) 0 (size + 1 - writeSize)
      (rest.1, rest.2.1, iterEvents page ++ rest.2.2)

/-- `FLASHD_Write` (flashd.c lines 281-350): translate the start address
to (page, offset) and run the write loop over the caller's buffer `buf`
(`dwSize` bytes).  `wp` is the per-page error oracle of the write-page
commands; the result is (return code, final flash contents, event log). -/
def FLASHD_Write (wp : Nat → Nat) (flash : Nat → Nat → Nat) (dwAddress : Nat)
    (buf : List Nat) (dwSize : Nat) : Nat × (Nat → Nat → Nat) × List Ev :=
  FLASHD_WriteLoop wp dwSize flash buf
    (SEFC_TranslateAddress_page dwAddress) (SEFC_TranslateAddress_offset dwAddress) dwSize

/-- Number of loop iterations (= pages touched) of a write of `size`
bytes starting at byte `offset` of its first page: 0 when `size = 0`,
else the page count covering bytes `[offset, offset + size)`. -/
def numWritePages (offset size : Nat) : Nat :=
  if size = 0 then 0
  else (offset + size + (IFLASH_PAGE_SIZE - 1)) / IFLASH_PAGE_SIZE

/-- Length of the longest leading run of arguments (starting at `start`,
`n` values, stepping by `step`) on which the error oracle `f` reports 0:
the number of commands that succeed before the first failure. -/
def okRun (f : Nat → Nat) (start n step : Nat) : Nat :=
  ((List.range' start n step).takeWhile (fun x => f x == 0)).length

/-! ### Lock / unlock (flashd.c, `FLASHD_Lock` / `FLASHD_Unlock`) -/

/-- The page loop shared by `FLASHD_Lock` (flashd.c lines 385-393) and
`FLASHD_Unlock` (lines 431-439): while `startPage < endPage`, issue `cmd`
(set- or clear-lock-bit) with the current (16-bit) page number as
argument, return the first non-zero error code immediately, else step the
page cursor by `step = numPagesInRegion`.  `errf page` is the error code
of the command at `page`; the result is (return code, list of issued
(command, argument) pairs).  `fuel` bounds the iterations; since each
iteration advances the cursor by `step ≥ 1`, `fuel = endPage` suffices for
the in-range page numbers this driver produces, making the fuel-exhausted
branch unreachable. -/
def FLASHD_LockLoop (errf : Nat → Nat) (cmd step : Nat) :
    Nat → Nat → Nat → Nat × List (Nat × Nat)
  | 0, _, _ => (0, [])
  | fuel + 1, startPage, endPage =>
    if startPage < endPage then
      let e := errf startPage
      if e ≠ 0 then (e, [(cmd, startPage)])
      else
        let rest := FLASHD_LockLoop errf cmd step fuel ((startPage + step) % 65536) endPage
        (rest.1, (cmd, startPage) :: rest.2)
    else (0, [])

/-- `FLASHD_Lock` (flashd.c lines 361-396): compute the lock-region
aligned range, report it (the source stores it through the non-null
output pointers; here it is returned), translate both ends to page
numbers and issue one set-lock-bit command per lock region.  Result:
(return code, actual start, actual end, issued commands). -/
def FLASHD_Lock (errf : Nat → Nat) (start stop : Nat) :
    Nat × Nat × Nat × List (Nat × Nat) :=
  let numPagesInRegion := IFLASH_LOCK_REGION_SIZE / IFLASH_PAGE_SIZE
  let r := ComputeLockRange start stop
  let startPage := SEFC_TranslateAddress_page r.1
  let endPage := SEFC_TranslateAddress_page r.2
  let res := FLASHD_LockLoop errf SEFC_FCMD_SLB numPagesInRegion endPage startPage endPage
  (res.1, r.1, r.2, res.2)

/-- `FLASHD_Unlock` (flashd.c lines 407-441): identical to `FLASHD_Lock`
but issuing clear-lock-bit commands. -/
def FLASHD_Unlock (errf : Nat → Nat) (start stop : Nat) :
    Nat × Nat × Nat × List (Nat × Nat) :=
  let numPagesInRegion := IFLASH_LOCK_REGION_SIZE / IFLASH_PAGE_SIZE
  let r := ComputeLockRange start stop
  let startPage := SEFC_TranslateAddress_page r.1
  let endPage := SEFC_TranslateAddress_page r.2
  let res := FLASHD_LockLoop errf SEFC_FCMD_CLB numPagesInRegion endPage startPage endPage
  (res.1, r.1, r.2, res.2)

/-! ### Theorems: address translation round trip (C4) -/

/-- **C4.** For every valid flash address `A` with
`IFLASH0_CNC_ADDR ≤ A < IFLASH0_CNC_ADDR + IFLASH_SIZE`, composing
`SEFC_TranslateAddress` (page, offset) with `SEFC_ComputeAddress` yields
`A` again: address-to-page-coordinate translation is invertible over the
valid range. -/
theorem translate_computeAddress_roundTrip (A : Nat)
    (h1 : IFLASH0_CNC_ADDR ≤ A) (h2 : A < IFLASH0_CNC_ADDR + IFLASH_SIZE) :
    SEFC_ComputeAddress (SEFC_TranslateAddress_page A) (SEFC_TranslateAddress_offset A) = A := by
  simp only [SEFC_ComputeAddress, SEFC_TranslateAddress_page, SEFC_TranslateAddress_offset,
    IFLASH0_CNC_ADDR, IFLASH_SIZE, IFLASH_PAGE_SIZE] at *
  omega

/-- Witness for C4: the round trip evaluated at the concrete in-range
address `0x01000200 + 77`. -/
theorem translate_computeAddress_roundTrip_witness :
    (IFLASH0_CNC_ADDR ≤ 0x01000200 + 77 ∧ 0x01000200 + 77 < IFLASH0_CNC_ADDR + IFLASH_SIZE) ∧
    SEFC_ComputeAddress (SEFC_TranslateAddress_page (0x01000200 + 77))
      (SEFC_TranslateAddress_offset (0x01000200 + 77)) = 0x01000200 + 77 :=
  ⟨by decide, translate_computeAddress_roundTrip (0x01000200 + 77) (by decide) (by decide)⟩

/-! ### Theorems: lock-range computation (C5) -/

/-- **C5, counterexample.** The claim "`ComputeLockRange` returns
`actual_end ≥ end` for every in-range pair `start ≤ end`" fails on the
code: at `start = IFLASH0_CNC_ADDR`, `end = IFLASH0_CNC_ADDR + 100` (an
in-range pair), `end` is translated to page 0, page 0 is already
region-aligned, and the returned actual end address is `IFLASH0_CNC_ADDR`,
strictly below `end`. -/
theorem computeLockRange_end_counterexample :
    IFLASH0_CNC_ADDR ≤ IFLASH0_CNC_ADDR ∧
    IFLASH0_CNC_ADDR ≤ IFLASH0_CNC_ADDR + 100 ∧
    IFLASH0_CNC_ADDR + 100 ≤ IFLASH0_CNC_ADDR + IFLASH_SIZE ∧
    (ComputeLockRange IFLASH0_CNC_ADDR (IFLASH0_CNC_ADDR + 100)).2 = IFLASH0_CNC_ADDR ∧
    (ComputeLockRange IFLASH0_CNC_ADDR (IFLASH0_CNC_ADDR + 100)).2
      < IFLASH0_CNC_ADDR + 100 := by
  refine ⟨by decide, by decide, by decide, by decide, by decide⟩

/-- **C5, amended.** For every in-range pair `start ≤ end`,
`ComputeLockRange` returns `actual_start ≤ start`, both results aligned to
the lock-region granularity (multiples of `IFLASH_LOCK_REGION_SIZE` from
the flash base), `actual_end` at least the page-aligned floor of `end`
(hence `actual_end ≥ end` whenever `end` falls on a page boundary — but
not for an `end` lying strictly inside the first page of a lock region),
and re-applying it to an already lock-region-aligned range returns the
same range. -/
theorem computeLockRange_spec (start stop : Nat)
    (h1 : IFLASH0_CNC_ADDR ≤ start) (h2 : start ≤ stop)
    (h3 : stop ≤ IFLASH0_CNC_ADDR + IFLASH_SIZE) :
    (ComputeLockRange start stop).1 ≤ start ∧
    IFLASH0_CNC_ADDR ≤ (ComputeLockRange start stop).1 ∧
    ((ComputeLockRange start stop).1 - IFLASH0_CNC_ADDR) % IFLASH_LOCK_REGION_SIZE = 0 ∧
    ((ComputeLockRange start stop).2 - IFLASH0_CNC_ADDR) % IFLASH_LOCK_REGION_SIZE = 0 ∧
    IFLASH0_CNC_ADDR + ((stop - IFLASH0_CNC_ADDR) / IFLASH_PAGE_SIZE) * IFLASH_PAGE_SIZE
      ≤ (ComputeLockRange start stop).2 ∧
    ((stop - IFLASH0_CNC_ADDR) % IFLASH_PAGE_SIZE = 0 → stop ≤ (ComputeLockRange start stop).2) ∧
    ((start - IFLASH0_CNC_ADDR) % IFLASH_LOCK_REGION_SIZE = 0 →
     (stop - IFLASH0_CNC_ADDR) % IFLASH_LOCK_REGION_SIZE = 0 →
     (ComputeLockRange start stop).1 = start ∧ (ComputeLockRange start stop).2 = stop) := by
  simp only [ComputeLockRange, SEFC_TranslateAddress_page, SEFC_ComputeAddress,
    IFLASH0_CNC_ADDR, IFLASH_SIZE, IFLASH_PAGE_SIZE, IFLASH_LOCK_REGION_SIZE] at *
  split <;> omega

/-- Witness for C5 (amended): evaluated at the concrete in-range pair
`start = IFLASH0_CNC_ADDR + 8192`, `stop = IFLASH0_CNC_ADDR + 16384`. -/
theorem computeLockRange_spec_witness :
    (IFLASH0_CNC_ADDR ≤ IFLASH0_CNC_ADDR + 8192 ∧
     IFLASH0_CNC_ADDR + 8192 ≤ IFLASH0_CNC_ADDR + 16384 ∧
     IFLASH0_CNC_ADDR + 16384 ≤ IFLASH0_CNC_ADDR + IFLASH_SIZE) ∧
    ((ComputeLockRange (IFLASH0_CNC_ADDR + 8192) (IFLASH0_CNC_ADDR + 16384)).1
       ≤ IFLASH0_CNC_ADDR + 8192 ∧
     IFLASH0_CNC_ADDR ≤ (ComputeLockRange (IFLASH0_CNC_ADDR + 8192) (IFLASH0_CNC_ADDR + 16384)).1 ∧
     ((ComputeLockRange (IFLASH0_CNC_ADDR + 8192) (IFLASH0_CNC_ADDR + 16384)).1 - IFLASH0_CNC_ADDR)
        % IFLASH_LOCK_REGION_SIZE = 0 ∧
     ((ComputeLockRange (IFLASH0_CNC_ADDR + 8192) (IFLASH0_CNC_ADDR + 16384)).2 - IFLASH0_CNC_ADDR)
        % IFLASH_LOCK_REGION_SIZE = 0 ∧
     IFLASH0_CNC_ADDR + ((IFLASH0_CNC_ADDR + 16384 - IFLASH0_CNC_ADDR) / IFLASH_PAGE_SIZE)
        * IFLASH_PAGE_SIZE
       ≤ (ComputeLockRange (IFLASH0_CNC_ADDR + 8192) (IFLASH0_CNC_ADDR + 16384)).2 ∧
     ((IFLASH0_CNC_ADDR + 16384 - IFLASH0_CNC_ADDR) % IFLASH_PAGE_SIZE = 0 →
       IFLASH0_CNC_ADDR + 16384
         ≤ (ComputeLockRange (IFLASH0_CNC_ADDR + 8192) (IFLASH0_CNC_ADDR + 16384)).2) ∧
     ((IFLASH0_CNC_ADDR + 8192 - IFLASH0_CNC_ADDR) % IFLASH_LOCK_REGION_SIZE = 0 →
      (IFLASH0_CNC_ADDR + 16384 - IFLASH0_CNC_ADDR) % IFLASH_LOCK_REGION_SIZE = 0 →
      (ComputeLockRange (IFLASH0_CNC_ADDR + 8192) (IFLASH0_CNC_ADDR + 16384)).1
         = IFLASH0_CNC_ADDR + 8192 ∧
      (ComputeLockRange (IFLASH0_CNC_ADDR + 8192) (IFLASH0_CNC_ADDR + 16384)).2
         = IFLASH0_CNC_ADDR + 16384)) :=
  ⟨by decide,
   computeLockRange_spec (IFLASH0_CNC_ADDR + 8192) (IFLASH0_CNC_ADDR + 16384)
     (by decide) (by decide) (by decide)⟩

/-! ### Theorems: out-of-range assertions (C9) -/

/-- **C9, counterexample.** The claim "every address outside the mapped
region `IFLASH0_CNC_ADDR ≤ A < IFLASH0_CNC_ADDR + IFLASH_SIZE` makes
address translation (and erase/write built on it) fail a fatal assertion"
is false at the boundary address `A = IFLASH0_CNC_ADDR + IFLASH_SIZE`:
that address violates the claimed half-open range, yet the assertions of
`SEFC_TranslateAddress` (which test `A <= IFLASH0_CNC_ADDR + IFLASH_SIZE`,
inclusive) and of `FLASHD_Erase` (whose own assert is a vacuous `||`) both
pass. -/
theorem assert_out_of_range_counterexample :
    ¬(IFLASH0_CNC_ADDR + IFLASH_SIZE < IFLASH0_CNC_ADDR + IFLASH_SIZE) ∧
    SEFC_TranslateAddress_assertOk (IFLASH0_CNC_ADDR + IFLASH_SIZE) = true ∧
    FLASHD_Erase_assertOk (IFLASH0_CNC_ADDR + IFLASH_SIZE) = true := by
  refine ⟨by decide, by decide, by decide⟩

/-- **C9, amended.** Address translation fails its assertions exactly for
addresses strictly below `IFLASH0_CNC_ADDR` or strictly above
`IFLASH0_CNC_ADDR + IFLASH_SIZE` (the guard is inclusive at the top, so
the boundary address `IFLASH0_CNC_ADDR + IFLASH_SIZE` passes although it
is outside the half-open mapped range); every in-range address passes, the
range assertion proper to `FLASHD_Erase`/`FLASHD_EraseSector` is vacuously
true for every address (it uses `||` instead of `&&`), and `FLASHD_Write`'s
own assertions pass for every in-range address/size pair. -/
theorem assert_out_of_range_spec (A : Nat) :
    (SEFC_TranslateAddress_assertOk A = false ↔
      (A < IFLASH0_CNC_ADDR ∨ IFLASH0_CNC_ADDR + IFLASH_SIZE < A)) ∧
    (IFLASH0_CNC_ADDR ≤ A → A < IFLASH0_CNC_ADDR + IFLASH_SIZE →
      SEFC_TranslateAddress_assertOk A = true) ∧
    FLASHD_Erase_assertOk A = true ∧
    (∀ sz : Nat, IFLASH0_CNC_ADDR ≤ A → A + sz ≤ IFLASH0_CNC_ADDR + IFLASH_SIZE →
      FLASHD_Write_assertOk A sz = true) := by
  refine ⟨?_, ?_, ?_, ?_⟩
  · simp only [SEFC_TranslateAddress_assertOk, Bool.and_eq_false_iff,
      decide_eq_false_iff_not, not_le] <;> omega
  · intro hA hB
    simp only [SEFC_TranslateAddress_assertOk, Bool.and_eq_true, decide_eq_true_eq] <;> omega
  · simp only [FLASHD_Erase_assertOk, Bool.or_eq_true, decide_eq_true_eq] <;> omega
  · intro sz hA hB
    simp only [FLASHD_Write_assertOk, Bool.and_eq_true, decide_eq_true_eq] <;> omega

/-- Witness for C9 (amended): evaluated at the concrete in-range address
`IFLASH0_CNC_ADDR + 4096` with size 256. -/
theorem assert_out_of_range_spec_witness :
    ((SEFC_TranslateAddress_assertOk (IFLASH0_CNC_ADDR + 4096) = false ↔
       (IFLASH0_CNC_ADDR + 4096 < IFLASH0_CNC_ADDR ∨
        IFLASH0_CNC_ADDR + IFLASH_SIZE < IFLASH0_CNC_ADDR + 4096)) ∧
     (IFLASH0_CNC_ADDR ≤ IFLASH0_CNC_ADDR + 4096 →
      IFLASH0_CNC_ADDR + 4096 < IFLASH0_CNC_ADDR + IFLASH_SIZE →
      SEFC_TranslateAddress_assertOk (IFLASH0_CNC_ADDR + 4096) = true) ∧
     FLASHD_Erase_assertOk (IFLASH0_CNC_ADDR + 4096) = true ∧
     (∀ sz : Nat, IFLASH0_CNC_ADDR ≤ IFLASH0_CNC_ADDR + 4096 →
       IFLASH0_CNC_ADDR + 4096 + sz ≤ IFLASH0_CNC_ADDR + IFLASH_SIZE →
       FLASHD_Write_assertOk (IFLASH0_CNC_ADDR + 4096) sz = true)) ∧
    SEFC_TranslateAddress_assertOk (IFLASH0_CNC_ADDR + 4096) = true ∧
    FLASHD_Write_assertOk (IFLASH0_CNC_ADDR + 4096) 256 = true := by
  have h := assert_out_of_range_spec (IFLASH0_CNC_ADDR + 4096)
  exact ⟨h, h.2.1 (by decide) (by decide), h.2.2.2 256 (by decide) (by decide)⟩

/-! ### Helper lemmas on bit operations -/

/-- A bitwise or of naturals is zero exactly when both operands are. -/
theorem natOr_eq_zero {a b : Nat} : a ||| b = 0 ↔ a = 0 ∧ b = 0 := by
  constructor
  · intro h
    constructor <;>
    · refine Nat.eq_of_testBit_eq fun i => ?_
      have hb := congrArg (fun x => x.testBit i) h
      simp only [Nat.testBit_or, Nat.zero_testBit, Bool.or_eq_false_iff] at hb
      simp [hb.1, hb.2]
  · rintro ⟨rfl, rfl⟩
    rfl

/-- Masking with the three error bits is zero exactly when each of the
three individual masks is zero. -/
theorem and_errorBits_eq_zero (s : Nat) :
    s &&& SEFC_ERROR_BITS = 0 ↔
      (s &&& EEFC_FSR_FLOCKE = 0 ∧ s &&& EEFC_FSR_FCMDE = 0 ∧ s &&& EEFC_FSR_FLERR = 0) := by
  have hmask : SEFC_ERROR_BITS = EEFC_FSR_FLOCKE ||| (EEFC_FSR_FCMDE ||| EEFC_FSR_FLERR) := by
    decide
  rw [hmask, Nat.and_or_distrib_left, Nat.and_or_distrib_left, natOr_eq_zero, natOr_eq_zero]

/-- The status word on which `pollFrdy` stops has the ready flag set. -/
theorem pollFrdy_frdy {trace : List Nat} {s : Nat} (h : pollFrdy trace = some s) :
    s &&& EEFC_FSR_FRDY = EEFC_FSR_FRDY := by
  induction trace with
  | nil => simp [pollFrdy] at h
  | cons t rest ih =>
    rw [pollFrdy] at h
    by_cases ht : t &&& EEFC_FSR_FRDY = EEFC_FSR_FRDY
    · rw [if_pos ht] at h
      cases h
      exact ht
    · rw [if_neg ht] at h
      exact ih h

/-! ### Helper lemmas for the loop characterisations -/

/-- `getD` after `drop` indexes the original list. -/
theorem getD_drop (l : List Nat) (m n : Nat) :
    (l.drop m).getD n 0 = l.getD (m + n) 0 := by
  simp [List.getD_eq_getElem?_getD, List.getElem?_drop]

/-- `okRun` over zero commands is zero. -/
theorem okRun_zero (f : Nat → Nat) (start step : Nat) : okRun f start 0 step = 0 := by
  simp [okRun]

/-- One-step unfolding of `okRun`. -/
theorem okRun_succ (f : Nat → Nat) (start n step : Nat) :
    okRun f start (n + 1) step
      = if f start = 0 then okRun f (start + step) n step + 1 else 0 := by
  by_cases h : f start = 0
  · simp [okRun, List.range'_succ, List.takeWhile_cons, h]
  · simp [okRun, List.range'_succ, List.takeWhile_cons, h]

/-- The successful run is never longer than the command list. -/
theorem okRun_le (f : Nat → Nat) (start n step : Nat) : okRun f start n step ≤ n := by
  induction n generalizing start with
  | zero => simp [okRun_zero]
  | succ n ih =>
    rw [okRun_succ]
    by_cases h : f start = 0
    · rw [if_pos h]
      exact Nat.succ_le_succ (ih (start + step))
    · rw [if_neg h]
      exact Nat.zero_le _

/-- The whole run succeeds exactly when every command in it reports 0. -/
theorem okRun_eq_iff (f : Nat → Nat) (start n step : Nat) :
    okRun f start n step = n ↔ ∀ k, k < n → f (start + k * step) = 0 := by
  induction n generalizing start with
  | zero => simp [okRun_zero]
  | succ n ih =>
    rw [okRun_succ]
    by_cases h : f start = 0
    · rw [if_pos h, Nat.add_right_cancel_iff, ih (start + step)]
      constructor
      · intro hall k hk
        rcases k with _ | j
        · simpa using h
        · have h2 := hall j (by omega)
          have harg : start + (j + 1) * step = start + step + j * step := by ring
          rw [harg]
          exact h2
      · intro hall k hk
        have h2 := hall (k + 1) (by omega)
        have harg : start + (k + 1) * step = start + step + k * step := by ring
        rw [harg] at h2
        exact h2
    · rw [if_neg h]
      constructor
      · intro h0
        omega
      · intro hall
        exact absurd (by simpa using hall 0 (by omega)) h
/-- When the run stops short, the command right after it fails. -/
theorem okRun_lt (f : Nat → Nat) (start n step : Nat)
    (h : okRun f start n step < n) :
    f (start + okRun f start n step * step) ≠ 0 := by
  induction n generalizing start with
  | zero => omega
  | succ n ih =>
    rw [okRun_succ] at h ⊢
    by_cases h0 : f start = 0
    · rw [if_pos h0] at h ⊢
      have h2 := ih (start + step) (by omega)
      have harg : start + (okRun f (start + step) n step + 1) * step
          = start + step + okRun f (start + step) n step * step := by ring
      rw [harg]
      exact h2
    · rw [if_neg h0]
      simpa using h0

/-- The write loop returns immediately on zero remaining size. -/
theorem writeLoop_size_zero (wp : Nat → Nat) (fuel : Nat) (flash : Nat → Nat → Nat)
    (buf : List Nat) (page offset : Nat) :
    FLASHD_WriteLoop wp fuel flash buf page offset 0 = (0, flash, []) := by
  cases fuel <;> rfl

/-- A write of zero bytes touches zero pages. -/
theorem numWritePages_zero (offset : Nat) : numWritePages offset 0 = 0 := by
  simp [numWritePages]

/-- Closed form of `numWritePages` for a non-empty write. -/
theorem numWritePages_eq (offset size : Nat) (h : size ≠ 0) :
    numWritePages offset size = (offset + size + 511) / 512 := by
  simp only [numWritePages, IFLASH_PAGE_SIZE]
  rw [if_neg h]

/-- One-step unfolding of the write loop on positive fuel and size. -/
theorem writeLoop_step (wp : Nat → Nat) (fuel : Nat) (flash : Nat → Nat → Nat)
    (buf : List Nat) (page offset size : Nat) :
    FLASHD_WriteLoop wp (fuel + 1) flash buf page offset (size + 1)
      = (if wp page ≠ 0 then (wp page, flash, iterEvents page)
         else
           ((FLASHD_WriteLoop wp fuel
               (commitPage flash page (stagePage flash buf page offset
                 (min (IFLASH_PAGE_SIZE - offset) (size + 1))))
               (buf.drop (min (IFLASH_PAGE_SIZE - offset) (size + 1)))
               ((page + 1) % 65536) 0
               (size + 1 - min (IFLASH_PAGE_SIZE - offset) (size + 1))).1,
            (FLASHD_WriteLoop wp fuel
               (commitPage flash page (stagePage flash buf page offset
                 (min (IFLASH_PAGE_SIZE - offset) (size + 1))))
               (buf.drop (min (IFLASH_PAGE_SIZE - offset) (size + 1)))
               ((page + 1) % 65536) 0
               (size + 1 - min (IFLASH_PAGE_SIZE - offset) (size + 1))).2.1,
            iterEvents page ++
              (FLASHD_WriteLoop wp fuel
                 (commitPage flash page (stagePage flash buf page offset
                   (min (IFLASH_PAGE_SIZE - offset) (size + 1))))
                 (buf.drop (min (IFLASH_PAGE_SIZE - offset) (size + 1)))
                 ((page + 1) % 65536) 0
                 (size + 1 - min (IFLASH_PAGE_SIZE - offset) (size + 1))).2.2)) := rfl

/-- Full characterisation of the write loop, by induction on the fuel:
its return code and event log are determined by `okRun` (the longest
successful leading run of write-page commands) over the
`numWritePages offset size` pages covered, and its final flash contents
replace, on exactly the committed pages, the bytes covered by the
caller's buffer while returning every other byte unchanged. -/
theorem FLASHD_WriteLoop_spec (wp : Nat → Nat) :
    ∀ (fuel size : Nat) (flash : Nat → Nat → Nat) (buf : List Nat) (page offset : Nat),
      size ≤ fuel → offset < IFLASH_PAGE_SIZE →
      page + numWritePages offset size ≤ 65536 →
      (FLASHD_WriteLoop wp fuel flash buf page offset size).1
        = (if okRun wp page (numWritePages offset size) 1 = numWritePages offset size then 0
           else wp (page + okRun wp page (numWritePages offset size) 1)) ∧
      (FLASHD_WriteLoop wp fuel flash buf page offset size).2.2
        = (List.range' page
            (min (okRun wp page (numWritePages offset size) 1 + 1)
                 (numWritePages offset size))).flatMap iterEvents ∧
      ∀ p i, (FLASHD_WriteLoop wp fuel flash buf page offset size).2.1 p i
        = if page ≤ p ∧ p < page + okRun wp page (numWritePages offset size) 1 ∧
             i < IFLASH_PAGE_SIZE ∧
             offset ≤ (p - page) * IFLASH_PAGE_SIZE + i ∧
             (p - page) * IFLASH_PAGE_SIZE + i < offset + size
          then buf.getD ((p - page) * IFLASH_PAGE_SIZE + i - offset) 0
          else flash p i := by
  intro fuel
  induction fuel with
  | zero =>
    intro size flash buf page offset hsz hoff hp
    have hs0 : size = 0 := Nat.le_zero.mp hsz
    subst hs0
    simp only [writeLoop_size_zero, numWritePages_zero, okRun_zero]
    refine ⟨by simp, by simp, ?_⟩
    intro p i
    rw [if_neg (by omega)]
  | succ fuel ih =>
    intro size flash buf page offset hsz hoff hp
    rcases size with _ | size
    · simp only [writeLoop_size_zero, numWritePages_zero, okRun_zero]
      refine ⟨by simp, by simp, ?_⟩
      intro p i
      rw [if_neg (by omega)]
    · have hps : IFLASH_PAGE_SIZE = 512 := rfl
      simp only [hps] at hoff
      simp only [writeLoop_step, hps]
      by_cases herr : wp page = 0
      · -- the write-page command for this page succeeds
        simp only [if_neg (not_not_intro herr)]
        have hn : numWritePages offset (size + 1)
            = numWritePages 0 (size + 1 - min (512 - offset) (size + 1)) + 1 := by
          rcases Nat.eq_zero_or_pos (size + 1 - min (512 - offset) (size + 1)) with h0 | hpos
          · rw [h0, numWritePages_zero, numWritePages_eq _ _ (Nat.succ_ne_zero _)]
            omega
          · rw [numWritePages_eq _ _ (Nat.succ_ne_zero _), numWritePages_eq _ _ (by omega)]
            omega
        have hm : okRun wp page (numWritePages offset (size + 1)) 1
            = okRun wp (page + 1)
                (numWritePages 0 (size + 1 - min (512 - offset) (size + 1))) 1 + 1 := by
          rw [hn, okRun_succ, if_pos herr]
        have hm2le : okRun wp (page + 1)
              (numWritePages 0 (size + 1 - min (512 - offset) (size + 1))) 1
            ≤ numWritePages 0 (size + 1 - min (512 - offset) (size + 1)) :=
          okRun_le wp (page + 1) _ 1
        have hmod : numWritePages 0 (size + 1 - min (512 - offset) (size + 1)) = 0 ∨
            (page + 1) % 65536 = page + 1 := by
          rcases Nat.eq_zero_or_pos
              (numWritePages 0 (size + 1 - min (512 - offset) (size + 1))) with h0 | hpos
          · exact Or.inl h0
          · right
            have hp2 := hp
            rw [hn] at hp2
            omega
        have hokmod : okRun wp ((page + 1) % 65536)
              (numWritePages 0 (size + 1 - min (512 - offset) (size + 1))) 1
            = okRun wp (page + 1)
              (numWritePages 0 (size + 1 - min (512 - offset) (size + 1))) 1 := by
          rcases hmod with h0 | hid
          · rw [h0, okRun_zero, okRun_zero]
          · rw [hid]
        have hple : (page + 1) % 65536
              + numWritePages 0 (size + 1 - min (512 - offset) (size + 1)) ≤ 65536 := by
          rcases hmod with h0 | hid
          · have hlt : (page + 1) % 65536 < 65536 := Nat.mod_lt _ (by omega)
            omega
          · have hp2 := hp
            rw [hn] at hp2
            rw [hid]
            omega
        have ihA := ih (size + 1 - min (512 - offset) (size + 1))
          (commitPage flash page
            (stagePage flash buf page offset (min (512 - offset) (size + 1))))
          (buf.drop (min (512 - offset) (size + 1)))
          ((page + 1) % 65536) 0 (by omega) (by decide) hple
        simp only [hps] at ihA
        rw [hokmod] at ihA
        obtain ⟨ih1, ih2, ih3⟩ := ihA
        refine ⟨?_, ?_, ?_⟩
        · rw [ih1]
          by_cases hmn : okRun wp (page + 1)
              (numWritePages 0 (size + 1 - min (512 - offset) (size + 1))) 1
            = numWritePages 0 (size + 1 - min (512 - offset) (size + 1))
          · rw [if_pos hmn, if_pos (by omega)]
          · rw [if_neg hmn, if_neg (by omega)]
            have hid : (page + 1) % 65536 = page + 1 := by
              rcases hmod with h0 | hid2
              · exfalso
                apply hmn
                rw [h0, okRun_zero]
              · exact hid2
            rw [hid]
            congr 1
            omega
        · rw [ih2]
          have hminr : min (okRun wp page (numWritePages offset (size + 1)) 1 + 1)
                (numWritePages offset (size + 1))
              = min (okRun wp (page + 1)
                    (numWritePages 0 (size + 1 - min (512 - offset) (size + 1))) 1 + 1)
                  (numWritePages 0 (size + 1 - min (512 - offset) (size + 1))) + 1 := by
            omega
          rw [hminr, List.range'_succ, List.flatMap_cons]
          rcases hmod with h0 | hid
          · have hk : min (okRun wp (page + 1)
                    (numWritePages 0 (size + 1 - min (512 - offset) (size + 1))) 1 + 1)
                (numWritePages 0 (size + 1 - min (512 - offset) (size + 1))) = 0 := by
              omega
            rw [hk]
            simp [List.range'_zero]
          · rw [hid]
        · intro p i
          rw [ih3 p i]
          by_cases hpp : p = page
          · subst hpp
            rw [if_neg (by omega)]
            simp only [commitPage, stagePage, hps, eq_self_iff_true, true_and, le_refl]
            split_ifs <;>
              first
              | rfl
              | (congr 1; omega)
              | (exfalso; omega)
          · have hfl : commitPage flash page
                (stagePage flash buf page offset (min (512 - offset) (size + 1))) p i
                = flash p i := by
              simp only [commitPage]
              rw [if_neg (fun hc => hpp hc.1)]
            rw [hfl]
            split_ifs with h1 h2
            · rw [getD_drop]
              congr 1
              omega
            · exfalso
              omega
            · exfalso
              omega
            · rfl
      · -- the write-page command for this page fails
        have herrne : wp page ≠ 0 := herr
        simp only [if_pos herrne]
        have hn1 : 1 ≤ numWritePages offset (size + 1) := by
          rw [numWritePages_eq _ _ (Nat.succ_ne_zero _)]
          omega
        have hm0 : okRun wp page (numWritePages offset (size + 1)) 1 = 0 := by
          have hnn : numWritePages offset (size + 1)
              = (numWritePages offset (size + 1) - 1) + 1 := by omega
          rw [hnn, okRun_succ, if_neg herr]
        rw [hm0]
        refine ⟨?_, ?_, ?_⟩
        · rw [if_neg (by omega)]
          simp
        · have hminr : min (0 + 1) (numWritePages offset (size + 1)) = 1 := by omega
          rw [hminr, List.range'_one]
          simp
        · intro p i
          rw [if_neg (by omega)]

/-- The byte offset produced by address translation is always below the
page size. -/
theorem translate_offset_lt (A : Nat) :
    SEFC_TranslateAddress_offset A < IFLASH_PAGE_SIZE := by
  simp only [SEFC_TranslateAddress_offset, IFLASH_PAGE_SIZE]
  omega

/-- For an in-range write the page counter never overflows `uint16_t`. -/
theorem write_pages_bound (A size : Nat) (h1 : IFLASH0_CNC_ADDR ≤ A)
    (h2 : A + size ≤ IFLASH0_CNC_ADDR + IFLASH_SIZE) :
    SEFC_TranslateAddress_page A
      + numWritePages (SEFC_TranslateAddress_offset A) size ≤ 65536 := by
  rcases Nat.eq_zero_or_pos size with h0 | hpos
  · rw [h0, numWritePages_zero]
    simp only [SEFC_TranslateAddress_page, IFLASH0_CNC_ADDR, IFLASH_SIZE,
      IFLASH_PAGE_SIZE] at *
    omega
  · rw [numWritePages_eq _ _ (by omega)]
    simp only [SEFC_TranslateAddress_page, SEFC_TranslateAddress_offset, IFLASH0_CNC_ADDR,
      IFLASH_SIZE, IFLASH_PAGE_SIZE] at *
    omega

/-! ### Theorems: read-modify-write page preservation (C1) -/

/-- **C1.** For every write of a buffer smaller than one page starting at
a non-zero offset within a page (and fitting inside it), `FLASHD_Write`
preserves all bytes of that page outside `[offset, offset+size)`
unchanged — the staging buffer is rebuilt from the existing page content
before `offset` and after `offset+size` — while the caller's bytes land
in `[offset, offset+size)`; every other page is untouched. -/
theorem flashd_write_rmw_spec (wp : Nat → Nat) (flash : Nat → Nat → Nat) (A : Nat)
    (buf : List Nat) (size : Nat)
    (h1 : IFLASH0_CNC_ADDR ≤ A) (h2 : A + size ≤ IFLASH0_CNC_ADDR + IFLASH_SIZE)
    (h3 : 0 < size)
    (h4 : SEFC_TranslateAddress_offset A ≠ 0)
    (h5 : SEFC_TranslateAddress_offset A + size ≤ IFLASH_PAGE_SIZE)
    (h6 : wp (SEFC_TranslateAddress_page A) = 0) :
    (∀ i, i < SEFC_TranslateAddress_offset A ∨ SEFC_TranslateAddress_offset A + size ≤ i →
      (FLASHD_Write wp flash A buf size).2.1 (SEFC_TranslateAddress_page A) i
        = flash (SEFC_TranslateAddress_page A) i) ∧
    (∀ i, SEFC_TranslateAddress_offset A ≤ i → i < SEFC_TranslateAddress_offset A + size →
      (FLASHD_Write wp flash A buf size).2.1 (SEFC_TranslateAddress_page A) i
        = buf.getD (i - SEFC_TranslateAddress_offset A) 0) ∧
    (∀ p i, p ≠ SEFC_TranslateAddress_page A →
      (FLASHD_Write wp flash A buf size).2.1 p i = flash p i) := by
  have hofflt := translate_offset_lt A
  have hbound := write_pages_bound A size h1 h2
  obtain ⟨s1, s2, s3⟩ := FLASHD_WriteLoop_spec wp size size flash buf
    (SEFC_TranslateAddress_page A) (SEFC_TranslateAddress_offset A)
    (Nat.le_refl _) hofflt hbound
  have hps : IFLASH_PAGE_SIZE = 512 := rfl
  rw [hps] at hofflt h5
  have hn : numWritePages (SEFC_TranslateAddress_offset A) size = 1 := by
    rw [numWritePages_eq _ _ (by omega)]
    omega
  have hm1 : okRun wp (SEFC_TranslateAddress_page A)
      (numWritePages (SEFC_TranslateAddress_offset A) size) 1 = 1 := by
    rw [hn, okRun_succ, if_pos h6, okRun_zero]
  refine ⟨?_, ?_, ?_⟩
  · intro i hi
    simp only [FLASHD_Write]
    rw [s3 (SEFC_TranslateAddress_page A) i]
    rw [if_neg ?hneg]
    case hneg =>
      simp only [Nat.sub_self, Nat.zero_mul, Nat.zero_add, hps]
      omega
  · intro i hi1 hi2
    simp only [FLASHD_Write]
    rw [s3 (SEFC_TranslateAddress_page A) i]
    rw [if_pos ?hpos]
    case hpos =>
      simp only [Nat.sub_self, Nat.zero_mul, Nat.zero_add, hps]
      omega
    simp only [Nat.sub_self, Nat.zero_mul, Nat.zero_add]
  · intro p i hp
    simp only [FLASHD_Write]
    rw [s3 p i]
    rw [if_neg (by omega)]

/-- Witness for C1: a 3-byte write at offset 100 of page 3 over a flash
pre-filled with the byte 7; byte 99 (prefix) and byte 103 (suffix) keep
the value 7, byte 101 receives the second caller byte, and page 5 is
untouched. -/
theorem flashd_write_rmw_spec_witness :
    (IFLASH0_CNC_ADDR ≤ 0x01000000 + 1636 ∧
     0x01000000 + 1636 + 3 ≤ IFLASH0_CNC_ADDR + IFLASH_SIZE ∧
     (0 : Nat) < 3 ∧
     SEFC_TranslateAddress_offset (0x01000000 + 1636) ≠ 0 ∧
     SEFC_TranslateAddress_offset (0x01000000 + 1636) + 3 ≤ IFLASH_PAGE_SIZE) ∧
    (FLASHD_Write (fun _ => 0) (fun _ _ => 7) (0x01000000 + 1636) [1, 2, 3] 3).2.1
      (SEFC_TranslateAddress_page (0x01000000 + 1636)) 99 = 7 ∧
    (FLASHD_Write (fun _ => 0) (fun _ _ => 7) (0x01000000 + 1636) [1, 2, 3] 3).2.1
      (SEFC_TranslateAddress_page (0x01000000 + 1636)) 103 = 7 ∧
    (FLASHD_Write (fun _ => 0) (fun _ _ => 7) (0x01000000 + 1636) [1, 2, 3] 3).2.1
      (SEFC_TranslateAddress_page (0x01000000 + 1636)) 101 = 2 ∧
    (FLASHD_Write (fun _ => 0) (fun _ _ => 7) (0x01000000 + 1636) [1, 2, 3] 3).2.1 5 0 = 7 := by
  have h := flashd_write_rmw_spec (fun _ => 0) (fun _ _ => 7) (0x01000000 + 1636) [1, 2, 3] 3
    (by decide) (by decide) (by decide) (by decide) (by decide) rfl
  exact ⟨⟨by decide, by decide, by decide, by decide, by decide⟩,
    h.1 99 (by decide), h.1 103 (by decide), h.2.1 101 (by decide) (by decide),
    h.2.2 5 0 (by decide)⟩

/-! ### Theorems: per-page stores and consecutive write commands (C2) -/

/-- **C2.** For every in-range invocation of `FLASHD_Write` with
`size > 0`, the event log consists of, per executed loop iteration,
exactly `IFLASH_PAGE_SIZE / 4` word-sized stores of the staging buffer
followed by exactly one write-page command, the iterations' page-number
arguments being consecutive from the page containing the start address
(this is the shape of `iterEvents`); when every page programs cleanly
the loop runs exactly `numWritePages` iterations and returns 0, and `N`
pages' worth of data at a page boundary makes `numWritePages` exactly
`N`. -/
theorem flashd_write_commands_spec (wp : Nat → Nat) (flash : Nat → Nat → Nat) (A : Nat)
    (buf : List Nat) (size : Nat)
    (h1 : IFLASH0_CNC_ADDR ≤ A) (h2 : A + size ≤ IFLASH0_CNC_ADDR + IFLASH_SIZE)
    (h3 : 0 < size) :
    ((∀ k, k < numWritePages (SEFC_TranslateAddress_offset A) size →
        wp (SEFC_TranslateAddress_page A + k) = 0) →
      (FLASHD_Write wp flash A buf size).2.2
        = (List.range' (SEFC_TranslateAddress_page A)
            (numWritePages (SEFC_TranslateAddress_offset A) size)).flatMap iterEvents ∧
      (FLASHD_Write wp flash A buf size).1 = 0) ∧
    (∃ c, c ≤ numWritePages (SEFC_TranslateAddress_offset A) size ∧
      (FLASHD_Write wp flash A buf size).2.2
        = (List.range' (SEFC_TranslateAddress_page A) c).flatMap iterEvents) ∧
    (∀ N, 0 < N → numWritePages 0 (N * IFLASH_PAGE_SIZE) = N) := by
  have hofflt := translate_offset_lt A
  have hbound := write_pages_bound A size h1 h2
  obtain ⟨s1, s2, s3⟩ := FLASHD_WriteLoop_spec wp size size flash buf
    (SEFC_TranslateAddress_page A) (SEFC_TranslateAddress_offset A)
    (Nat.le_refl _) hofflt hbound
  refine ⟨?_, ?_, ?_⟩
  · intro hall
    have hmeq : okRun wp (SEFC_TranslateAddress_page A)
        (numWritePages (SEFC_TranslateAddress_offset A) size) 1
        = numWritePages (SEFC_TranslateAddress_offset A) size :=
      (okRun_eq_iff wp _ _ 1).mpr (fun k hk => by rw [Nat.mul_one]; exact hall k hk)
    constructor
    · simp only [FLASHD_Write]
      rw [s2]
      have hmin : min (okRun wp (SEFC_TranslateAddress_page A)
              (numWritePages (SEFC_TranslateAddress_offset A) size) 1 + 1)
            (numWritePages (SEFC_TranslateAddress_offset A) size)
          = numWritePages (SEFC_TranslateAddress_offset A) size := by
        omega
      rw [hmin]
    · simp only [FLASHD_Write]
      rw [s1, if_pos hmeq]
  · refine ⟨min (okRun wp (SEFC_TranslateAddress_page A)
        (numWritePages (SEFC_TranslateAddress_offset A) size) 1 + 1)
      (numWritePages (SEFC_TranslateAddress_offset A) size), by omega, ?_⟩
    simp only [FLASHD_Write]
    exact s2
  · intro N hN
    rw [numWritePages_eq _ _ (Nat.mul_ne_zero (by omega) (by decide))]
    simp only [IFLASH_PAGE_SIZE]
    omega

/-- Witness for C2: writing 600 bytes starting 100 bytes into a page
(the spec's scenario) touches exactly 2 pages; with an error-free oracle
the log is exactly two iterations with consecutive page arguments and the
return code is 0; 4 page-sized buffers span 4 pages. -/
theorem flashd_write_commands_spec_witness :
    (IFLASH0_CNC_ADDR ≤ 0x01000000 + 100 ∧
     0x01000000 + 100 + 600 ≤ IFLASH0_CNC_ADDR + IFLASH_SIZE ∧ (0 : Nat) < 600) ∧
    numWritePages (SEFC_TranslateAddress_offset (0x01000000 + 100)) 600 = 2 ∧
    (FLASHD_Write (fun _ => 0) (fun _ _ => 7) (0x01000000 + 100)
        (List.replicate 600 5) 600).1 = 0 ∧
    (FLASHD_Write (fun _ => 0) (fun _ _ => 7) (0x01000000 + 100)
        (List.replicate 600 5) 600).2.2
      = (List.range' (SEFC_TranslateAddress_page (0x01000000 + 100)) 2).flatMap iterEvents ∧
    numWritePages 0 (4 * IFLASH_PAGE_SIZE) = 4 := by
  have h := flashd_write_commands_spec (fun _ => 0) (fun _ _ => 7) (0x01000000 + 100)
    (List.replicate 600 5) 600 (by decide) (by decide) (by decide)
  have hall := h.1 (fun k _ => rfl)
  refine ⟨⟨by decide, by decide, by decide⟩, by decide, hall.2, ?_, h.2.2 4 (by decide)⟩
  have hn2 : numWritePages (SEFC_TranslateAddress_offset (0x01000000 + 100)) 600 = 2 := by
    decide
  rw [← hn2]
  exact hall.1

/-! ### Theorems: error short-circuit and no rollback (C3) -/

/-- **C3.** For every in-range invocation of `FLASHD_Write` with
`size > 0`: the return value is 0 exactly when every write-page command
in the range reported zero error bits; when the successful run `okRun`
stops before the last page, the first failing command's code is returned
unchanged and the log ends immediately after that command (no commands
for the remaining pages); and every byte committed by the iterations
before the failure holds the caller's data — pages written before the
failure remain written, with no rollback. -/
theorem flashd_write_error_spec (wp : Nat → Nat) (flash : Nat → Nat → Nat) (A : Nat)
    (buf : List Nat) (size : Nat)
    (h1 : IFLASH0_CNC_ADDR ≤ A) (h2 : A + size ≤ IFLASH0_CNC_ADDR + IFLASH_SIZE)
    (h3 : 0 < size) :
    ((FLASHD_Write wp flash A buf size).1 = 0 ↔
      ∀ k, k < numWritePages (SEFC_TranslateAddress_offset A) size →
        wp (SEFC_TranslateAddress_page A + k) = 0) ∧
    (okRun wp (SEFC_TranslateAddress_page A)
        (numWritePages (SEFC_TranslateAddress_offset A) size) 1
        < numWritePages (SEFC_TranslateAddress_offset A) size →
      (FLASHD_Write wp flash A buf size).1
        = wp (SEFC_TranslateAddress_page A
            + okRun wp (SEFC_TranslateAddress_page A)
                (numWritePages (SEFC_TranslateAddress_offset A) size) 1) ∧
      (FLASHD_Write wp flash A buf size).2.2
        = (List.range' (SEFC_TranslateAddress_page A)
            (okRun wp (SEFC_TranslateAddress_page A)
              (numWritePages (SEFC_TranslateAddress_offset A) size) 1 + 1)).flatMap
            iterEvents) ∧
    (∀ p i, SEFC_TranslateAddress_page A ≤ p →
      p < SEFC_TranslateAddress_page A
          + okRun wp (SEFC_TranslateAddress_page A)
              (numWritePages (SEFC_TranslateAddress_offset A) size) 1 →
      i < IFLASH_PAGE_SIZE →
      SEFC_TranslateAddress_offset A
        ≤ (p - SEFC_TranslateAddress_page A) * IFLASH_PAGE_SIZE + i →
      (p - SEFC_TranslateAddress_page A) * IFLASH_PAGE_SIZE + i
        < SEFC_TranslateAddress_offset A + size →
      (FLASHD_Write wp flash A buf size).2.1 p i
        = buf.getD ((p - SEFC_TranslateAddress_page A) * IFLASH_PAGE_SIZE + i
            - SEFC_TranslateAddress_offset A) 0) := by
  have hofflt := translate_offset_lt A
  have hbound := write_pages_bound A size h1 h2
  obtain ⟨s1, s2, s3⟩ := FLASHD_WriteLoop_spec wp size size flash buf
    (SEFC_TranslateAddress_page A) (SEFC_TranslateAddress_offset A)
    (Nat.le_refl _) hofflt hbound
  refine ⟨?_, ?_, ?_⟩
  · constructor
    · intro h0
      by_cases hmn : okRun wp (SEFC_TranslateAddress_page A)
          (numWritePages (SEFC_TranslateAddress_offset A) size) 1
          = numWritePages (SEFC_TranslateAddress_offset A) size
      · intro k hk
        have hk2 := (okRun_eq_iff wp _ _ 1).mp hmn k hk
        rwa [Nat.mul_one] at hk2
      · exfalso
        simp only [FLASHD_Write] at h0
        rw [s1, if_neg hmn] at h0
        have hne := okRun_lt wp (SEFC_TranslateAddress_page A)
          (numWritePages (SEFC_TranslateAddress_offset A) size) 1
          (Nat.lt_of_le_of_ne (okRun_le wp _ _ 1) hmn)
        rw [Nat.mul_one] at hne
        exact hne h0
    · intro hall
      have hmeq : okRun wp (SEFC_TranslateAddress_page A)
          (numWritePages (SEFC_TranslateAddress_offset A) size) 1
          = numWritePages (SEFC_TranslateAddress_offset A) size :=
        (okRun_eq_iff wp _ _ 1).mpr (fun k hk => by rw [Nat.mul_one]; exact hall k hk)
      simp only [FLASHD_Write]
      rw [s1, if_pos hmeq]
  · intro hlt
    constructor
    · simp only [FLASHD_Write]
      rw [s1, if_neg (by omega)]
    · simp only [FLASHD_Write]
      rw [s2]
      have hmin : min (okRun wp (SEFC_TranslateAddress_page A)
              (numWritePages (SEFC_TranslateAddress_offset A) size) 1 + 1)
            (numWritePages (SEFC_TranslateAddress_offset A) size)
          = okRun wp (SEFC_TranslateAddress_page A)
              (numWritePages (SEFC_TranslateAddress_offset A) size) 1 + 1 := by
        omega
      rw [hmin]
  · intro p i hp1 hp2 hi ho1 ho2
    simp only [FLASHD_Write]
    rw [s3 p i, if_pos ⟨hp1, hp2, hi, ho1, ho2⟩]

/-- Witness for C3: with an oracle failing only on page 1, an in-range
3-page write starting at page 0 returns the failing page's code 9, logs
exactly two iterations (pages 0 and 1), and page 0's bytes hold the
caller's data (no rollback). -/
theorem flashd_write_error_spec_witness :
    (IFLASH0_CNC_ADDR ≤ 0x01000000 ∧
     0x01000000 + 1536 ≤ IFLASH0_CNC_ADDR + IFLASH_SIZE ∧ (0 : Nat) < 1536) ∧
    okRun (fun p => if p = 1 then 9 else 0) (SEFC_TranslateAddress_page 0x01000000)
      (numWritePages (SEFC_TranslateAddress_offset 0x01000000) 1536) 1
      < numWritePages (SEFC_TranslateAddress_offset 0x01000000) 1536 ∧
    (FLASHD_Write (fun p => if p = 1 then 9 else 0) (fun _ _ => 7) 0x01000000
        (List.replicate 1536 4) 1536).1 = 9 ∧
    (FLASHD_Write (fun p => if p = 1 then 9 else 0) (fun _ _ => 7) 0x01000000
        (List.replicate 1536 4) 1536).2.1 0 5 = 4 := by
  have h := flashd_write_error_spec (fun p => if p = 1 then 9 else 0) (fun _ _ => 7)
    0x01000000 (List.replicate 1536 4) 1536 (by decide) (by decide) (by decide)
  refine ⟨⟨by decide, by decide, by decide⟩, by decide, ?_, ?_⟩
  · exact (h.2.1 (by decide)).1
  · exact h.2.2 0 5 (by decide) (by decide) (by decide) (by decide) (by decide)

/-! ### Theorems: lock / unlock command sequences (C7) -/

/-- The lock loop returns immediately on exhausted fuel. -/
theorem lockLoop_zero_fuel (errf : Nat → Nat) (c step startPage endPage : Nat) :
    FLASHD_LockLoop errf c step 0 startPage endPage = (0, []) := rfl

/-- One-step unfolding of the lock loop. -/
theorem lockLoop_step (errf : Nat → Nat) (c step fuel startPage endPage : Nat) :
    FLASHD_LockLoop errf c step (fuel + 1) startPage endPage
      = (if startPage < endPage then
           if errf startPage ≠ 0 then (errf startPage, [(c, startPage)])
           else
             ((FLASHD_LockLoop errf c step fuel ((startPage + step) % 65536) endPage).1,
              (c, startPage) ::
                (FLASHD_LockLoop errf c step fuel ((startPage + step) % 65536) endPage).2)
         else (0, [])) := rfl

/-- Full characterisation of the lock/unlock page loop at the fixed
region step of 16 pages: it issues one command per lock region, stopping
at the first non-zero error code, which it returns. -/
theorem FLASHD_LockLoop_spec (errf : Nat → Nat) (c : Nat) :
    ∀ (fuel startPage endPage : Nat),
      (endPage - startPage + 15) / 16 ≤ fuel →
      startPage + ((endPage - startPage + 15) / 16) * 16 < 65536 →
      (FLASHD_LockLoop errf c 16 fuel startPage endPage).1
        = (if okRun errf startPage ((endPage - startPage + 15) / 16) 16
              = (endPage - startPage + 15) / 16 then 0
           else errf (startPage
              + okRun errf startPage ((endPage - startPage + 15) / 16) 16 * 16)) ∧
      (FLASHD_LockLoop errf c 16 fuel startPage endPage).2
        = (List.range' startPage
            (min (okRun errf startPage ((endPage - startPage + 15) / 16) 16 + 1)
              ((endPage - startPage + 15) / 16)) 16).map (fun pg => (c, pg)) := by
  intro fuel
  induction fuel with
  | zero =>
    intro startPage endPage hfuel hwrap
    have hn0 : (endPage - startPage + 15) / 16 = 0 := Nat.le_zero.mp hfuel
    rw [lockLoop_zero_fuel, hn0, okRun_zero]
    exact ⟨by simp, by simp⟩
  | succ fuel ih =>
    intro startPage endPage hfuel hwrap
    rw [lockLoop_step]
    by_cases hlt : startPage < endPage
    · rw [if_pos hlt]
      have hn1 : 1 ≤ (endPage - startPage + 15) / 16 := by omega
      have hncount : (endPage - startPage + 15) / 16
          = (endPage - (startPage + 16) + 15) / 16 + 1 := by omega
      by_cases herr : errf startPage = 0
      · rw [if_neg (not_not_intro herr)]
        have hmod : (startPage + 16) % 65536 = startPage + 16 := by omega
        rw [hmod]
        have hA := ih (startPage + 16) endPage (by omega) (by omega)
        obtain ⟨ihr, ihl⟩ := hA
        have hok : okRun errf startPage ((endPage - startPage + 15) / 16) 16
            = okRun errf (startPage + 16) ((endPage - (startPage + 16) + 15) / 16) 16 + 1 := by
          rw [hncount, okRun_succ, if_pos herr]
        have hmle := okRun_le errf (startPage + 16) ((endPage - (startPage + 16) + 15) / 16) 16
        constructor
        · rw [ihr]
          by_cases hmn : okRun errf (startPage + 16) ((endPage - (startPage + 16) + 15) / 16) 16
              = (endPage - (startPage + 16) + 15) / 16
          · rw [if_pos hmn, if_pos (by omega)]
          · rw [if_neg hmn, if_neg (by omega)]
            congr 1
            omega
        · rw [ihl]
          have hminr : min (okRun errf startPage ((endPage - startPage + 15) / 16) 16 + 1)
                ((endPage - startPage + 15) / 16)
              = min (okRun errf (startPage + 16)
                    ((endPage - (startPage + 16) + 15) / 16) 16 + 1)
                  ((endPage - (startPage + 16) + 15) / 16) + 1 := by
            omega
          rw [hminr, List.range'_succ, List.map_cons]
      · have herrne : errf startPage ≠ 0 := herr
        rw [if_pos herrne]
        have hm0 : okRun errf startPage ((endPage - startPage + 15) / 16) 16 = 0 := by
          have hnn : (endPage - startPage + 15) / 16
              = ((endPage - startPage + 15) / 16 - 1) + 1 := by omega
          rw [hnn, okRun_succ, if_neg herr]
        rw [hm0]
        constructor
        · rw [if_neg (by omega)]
          simp
        · have hminr : min (0 + 1) ((endPage - startPage + 15) / 16) = 1 := by omega
          rw [hminr]
          simp [List.range'_succ, List.range'_zero]
    · rw [if_neg hlt]
      have hn0 : (endPage - startPage + 15) / 16 = 0 := by omega
      rw [hn0, okRun_zero]
      exact ⟨by simp, by simp⟩

/-- The aligned page numbers used by `FLASHD_Lock`/`FLASHD_Unlock` are
ordered and bounded by the page count of the device. -/
theorem lockRange_page_bounds (start stop : Nat)
    (h1 : IFLASH0_CNC_ADDR ≤ start) (h2 : start ≤ stop)
    (h3 : stop ≤ IFLASH0_CNC_ADDR + IFLASH_SIZE) :
    SEFC_TranslateAddress_page (ComputeLockRange start stop).1
      ≤ SEFC_TranslateAddress_page (ComputeLockRange start stop).2 ∧
    SEFC_TranslateAddress_page (ComputeLockRange start stop).2 ≤ 4096 := by
  simp only [ComputeLockRange, SEFC_TranslateAddress_page, SEFC_ComputeAddress,
    IFLASH0_CNC_ADDR, IFLASH_SIZE, IFLASH_PAGE_SIZE, IFLASH_LOCK_REGION_SIZE] at *
  split <;> omega

/-- Projection of an explicit pair, as a rewrite rule. -/
theorem prodFst {α β : Type} (a : α) (b : β) : (Prod.mk a b).1 = a := rfl

/-- Projection of an explicit pair, as a rewrite rule. -/
theorem prodSnd {α β : Type} (a : α) (b : β) : (Prod.mk a b).2 = b := rfl

/-- Unfolding equation of `FLASHD_Lock`: the aligned range is computed,
translated to page numbers, and handed to the page loop with the
region step `IFLASH_LOCK_REGION_SIZE / IFLASH_PAGE_SIZE = 16`. -/
theorem FLASHD_Lock_eq (errf : Nat → Nat) (start stop : Nat) :
    FLASHD_Lock errf start stop
      = ((FLASHD_LockLoop errf SEFC_FCMD_SLB 16
          (SEFC_TranslateAddress_page (ComputeLockRange start stop).2)
          (SEFC_TranslateAddress_page (ComputeLockRange start stop).1)
          (SEFC_TranslateAddress_page (ComputeLockRange start stop).2)).1,
         (ComputeLockRange start stop).1, (ComputeLockRange start stop).2,
         (FLASHD_LockLoop errf SEFC_FCMD_SLB 16
          (SEFC_TranslateAddress_page (ComputeLockRange start stop).2)
          (SEFC_TranslateAddress_page (ComputeLockRange start stop).1)
          (SEFC_TranslateAddress_page (ComputeLockRange start stop).2)).2) := rfl

/-- Unfolding equation of `FLASHD_Unlock`, analogous to `FLASHD_Lock_eq`. -/
theorem FLASHD_Unlock_eq (errf : Nat → Nat) (start stop : Nat) :
    FLASHD_Unlock errf start stop
      = ((FLASHD_LockLoop errf SEFC_FCMD_CLB 16
          (SEFC_TranslateAddress_page (ComputeLockRange start stop).2)
          (SEFC_TranslateAddress_page (ComputeLockRange start stop).1)
          (SEFC_TranslateAddress_page (ComputeLockRange start stop).2)).1,
         (ComputeLockRange start stop).1, (ComputeLockRange start stop).2,
         (FLASHD_LockLoop errf SEFC_FCMD_CLB 16
          (SEFC_TranslateAddress_page (ComputeLockRange start stop).2)
          (SEFC_TranslateAddress_page (ComputeLockRange start stop).1)
          (SEFC_TranslateAddress_page (ComputeLockRange start stop).2)).2) := rfl

/-- **C7.** For every in-range pair `start ≤ end`, `FLASHD_Lock` (and
symmetrically `FLASHD_Unlock`) reports the lock-region-aligned range
through its output parameters (components 2 and 3 of the result) and
issues exactly one set-lock-bit (respectively clear-lock-bit) command per
lock region of the aligned range — page-number arguments starting at the
aligned start page and stepping by `numPagesInRegion = 16` pages until
the cursor reaches the aligned end page — returning the first non-zero
command error without issuing commands for the remaining regions, else
0. -/
theorem flashd_lock_unlock_spec (errL errU : Nat → Nat) (start stop : Nat)
    (h1 : IFLASH0_CNC_ADDR ≤ start) (h2 : start ≤ stop)
    (h3 : stop ≤ IFLASH0_CNC_ADDR + IFLASH_SIZE) :
    FLASHD_Lock errL start stop
      = ((if okRun errL (SEFC_TranslateAddress_page (ComputeLockRange start stop).1)
              ((SEFC_TranslateAddress_page (ComputeLockRange start stop).2
                - SEFC_TranslateAddress_page (ComputeLockRange start stop).1 + 15) / 16) 16
            = (SEFC_TranslateAddress_page (ComputeLockRange start stop).2
                - SEFC_TranslateAddress_page (ComputeLockRange start stop).1 + 15) / 16
          then 0
          else errL (SEFC_TranslateAddress_page (ComputeLockRange start stop).1
            + okRun errL (SEFC_TranslateAddress_page (ComputeLockRange start stop).1)
                ((SEFC_TranslateAddress_page (ComputeLockRange start stop).2
                  - SEFC_TranslateAddress_page (ComputeLockRange start stop).1 + 15) / 16) 16
              * 16)),
         (ComputeLockRange start stop).1, (ComputeLockRange start stop).2,
         (List.range' (SEFC_TranslateAddress_page (ComputeLockRange start stop).1)
            (min (okRun errL (SEFC_TranslateAddress_page (ComputeLockRange start stop).1)
                  ((SEFC_TranslateAddress_page (ComputeLockRange start stop).2
                    - SEFC_TranslateAddress_page (ComputeLockRange start stop).1 + 15) / 16) 16
                + 1)
              ((SEFC_TranslateAddress_page (ComputeLockRange start stop).2
                - SEFC_TranslateAddress_page (ComputeLockRange start stop).1 + 15) / 16)) 16).map
            (fun pg => (SEFC_FCMD_SLB, pg))) ∧
    FLASHD_Unlock errU start stop
      = ((if okRun errU (SEFC_TranslateAddress_page (ComputeLockRange start stop).1)
              ((SEFC_TranslateAddress_page (ComputeLockRange start stop).2
                - SEFC_TranslateAddress_page (ComputeLockRange start stop).1 + 15) / 16) 16
            = (SEFC_TranslateAddress_page (ComputeLockRange start stop).2
                - SEFC_TranslateAddress_page (ComputeLockRange start stop).1 + 15) / 16
          then 0
          else errU (SEFC_TranslateAddress_page (ComputeLockRange start stop).1
            + okRun errU (SEFC_TranslateAddress_page (ComputeLockRange start stop).1)
                ((SEFC_TranslateAddress_page (ComputeLockRange start stop).2
                  - SEFC_TranslateAddress_page (ComputeLockRange start stop).1 + 15) / 16) 16
              * 16)),
         (ComputeLockRange start stop).1, (ComputeLockRange start stop).2,
         (List.range' (SEFC_TranslateAddress_page (ComputeLockRange start stop).1)
            (min (okRun errU (SEFC_TranslateAddress_page (ComputeLockRange start stop).1)
                  ((SEFC_TranslateAddress_page (ComputeLockRange start stop).2
                    - SEFC_TranslateAddress_page (ComputeLockRange start stop).1 + 15) / 16) 16
                + 1)
              ((SEFC_TranslateAddress_page (ComputeLockRange start stop).2
                - SEFC_TranslateAddress_page (ComputeLockRange start stop).1 + 15) / 16)) 16).map
            (fun pg => (SEFC_FCMD_CLB, pg))) := by
  obtain ⟨hord, hbound⟩ := lockRange_page_bounds start stop h1 h2 h3
  have hfuel : (SEFC_TranslateAddress_page (ComputeLockRange start stop).2
      - SEFC_TranslateAddress_page (ComputeLockRange start stop).1 + 15) / 16
      ≤ SEFC_TranslateAddress_page (ComputeLockRange start stop).2 := by
    omega
  have hwrap : SEFC_TranslateAddress_page (ComputeLockRange start stop).1
      + ((SEFC_TranslateAddress_page (ComputeLockRange start stop).2
        - SEFC_TranslateAddress_page (ComputeLockRange start stop).1 + 15) / 16) * 16
      < 65536 := by
    omega
  obtain ⟨hLr, hLl⟩ := FLASHD_LockLoop_spec errL SEFC_FCMD_SLB
    (SEFC_TranslateAddress_page (ComputeLockRange start stop).2)
    (SEFC_TranslateAddress_page (ComputeLockRange start stop).1)
    (SEFC_TranslateAddress_page (ComputeLockRange start stop).2) hfuel hwrap
  obtain ⟨hUr, hUl⟩ := FLASHD_LockLoop_spec errU SEFC_FCMD_CLB
    (SEFC_TranslateAddress_page (ComputeLockRange start stop).2)
    (SEFC_TranslateAddress_page (ComputeLockRange start stop).1)
    (SEFC_TranslateAddress_page (ComputeLockRange start stop).2) hfuel hwrap
  constructor
  · rw [FLASHD_Lock_eq]
    rw [hLr]
    rw [hLl]
  · rw [FLASHD_Unlock_eq]
    rw [hUr]
    rw [hUl]

/-- Witness for C7: locking then unlocking `[base, base+10000)` with
error-free oracles aligns the range to `[base, base+16384)`, issues
exactly two commands with page arguments 0 and 16, and returns 0. -/
theorem flashd_lock_unlock_spec_witness :
    (IFLASH0_CNC_ADDR ≤ 0x01000000 ∧ 0x01000000 ≤ 0x01000000 + 10000 ∧
     0x01000000 + 10000 ≤ IFLASH0_CNC_ADDR + IFLASH_SIZE) ∧
    (FLASHD_Lock (fun _ => 0) 0x01000000 (0x01000000 + 10000)).2.1 = 0x01000000 ∧
    (FLASHD_Lock (fun _ => 0) 0x01000000 (0x01000000 + 10000)).2.2.1 = 0x01000000 + 16384 ∧
    (FLASHD_Lock (fun _ => 0) 0x01000000 (0x01000000 + 10000)).1 = 0 ∧
    (FLASHD_Lock (fun _ => 0) 0x01000000 (0x01000000 + 10000)).2.2.2
      = [(SEFC_FCMD_SLB, 0), (SEFC_FCMD_SLB, 16)] ∧
    (FLASHD_Unlock (fun _ => 0) 0x01000000 (0x01000000 + 10000)).2.2.2
      = [(SEFC_FCMD_CLB, 0), (SEFC_FCMD_CLB, 16)] := by
  have h := flashd_lock_unlock_spec (fun _ => 0) (fun _ => 0) 0x01000000 (0x01000000 + 10000)
    (by decide) (by decide) (by decide)
  refine ⟨⟨by decide, by decide, by decide⟩, ?_, ?_, ?_, ?_, ?_⟩
  · rw [h.1]
    decide
  · rw [h.1]
    decide
  · rw [h.1]
    decide
  · rw [h.1]
    decide
  · rw [h.2]
    decide

/-! ### Theorems: command execution protocol (C6) -/

/-- **C6.** For every command and argument, `SEFC_PerformCommand` returns
exactly the completion status masked to the bitwise OR of the lock-error
(`FLOCKE`), command-error (`FCMDE`) and lock-bit-error (`FLERR`) bits, so
the return value is zero exactly when none of those three bits is set in
the sampled status; on the direct register path the sampled status is the
first `EEFC_FSR` read with the ready bit (`FRDY`) set — the call returns
only after the ready bit has been observed — and on the IAP path the
status sampled after the trampoline is masked the same way. -/
theorem sefc_performCommand_spec (dwCommand dwArgument : Nat) (trace : List Nat) (s : Nat)
    (h : pollFrdy trace = some s) :
    (SEFC_PerformCommand_direct dwCommand dwArgument trace).2 = some (s &&& SEFC_ERROR_BITS) ∧
    s &&& EEFC_FSR_FRDY = EEFC_FSR_FRDY ∧
    ((SEFC_PerformCommand_direct dwCommand dwArgument trace).2 = some 0 ↔
      (s &&& EEFC_FSR_FLOCKE = 0 ∧ s &&& EEFC_FSR_FCMDE = 0 ∧ s &&& EEFC_FSR_FLERR = 0)) ∧
    (∀ statusAfter : Nat,
      (SEFC_PerformCommand_iap dwCommand dwArgument statusAfter).2
        = statusAfter &&& SEFC_ERROR_BITS) := by
  have h1 : (SEFC_PerformCommand_direct dwCommand dwArgument trace).2
      = some (s &&& SEFC_ERROR_BITS) := by
    simp [SEFC_PerformCommand_direct, h]
  refine ⟨h1, pollFrdy_frdy h, ?_, fun _ => rfl⟩
  rw [h1, Option.some.injEq]
  exact and_errorBits_eq_zero s

/-- Witness for C6: the direct path run on the concrete status trace
`[0, 5]` (one not-ready read, then ready with `FLOCKE` set) returns the
masked error `4`; the first status read with the ready bit set is `5`. -/
theorem sefc_performCommand_spec_witness :
    pollFrdy [0, 5] = some 5 ∧
    (SEFC_PerformCommand_direct SEFC_FCMD_WP 3 [0, 5]).2 = some (5 &&& SEFC_ERROR_BITS) ∧
    (5 : Nat) &&& EEFC_FSR_FRDY = EEFC_FSR_FRDY :=
  ⟨by decide,
   (sefc_performCommand_spec SEFC_FCMD_WP 3 [0, 5] 5 (by decide)).1,
   (sefc_performCommand_spec SEFC_FCMD_WP 3 [0, 5] 5 (by decide)).2.1⟩

/-! ### Theorems: unique-ID read (C10) -/

/-- **C10.** `FLASHD_ReadUniqueID` called with a NULL output pointer
returns 1 immediately, issuing no flash command and reading no words;
called with a non-NULL pointer it returns 0 after writing exactly the
start- and stop-unique-ID command words and filling the four output words
from the start of the flash window, regardless of the hardware status
sampled by the final ready-wait — no hardware error condition is ever
reported. -/
theorem flashd_readUniqueID_spec (mem : Nat → Nat) (trace : List Nat) (s : Nat)
    (h : pollFrdy trace = some s) :
    FLASHD_ReadUniqueID true mem trace = some (1, [], []) ∧
    FLASHD_ReadUniqueID false mem trace =
      some (0,
        [EEFC_FCR_FKEY_PASSWD ||| SEFC_FCMD_STUI,
         EEFC_FCR_FKEY_PASSWD ||| SEFC_FCMD_SPUI],
        [mem IFLASH0_CNC_ADDR, mem (IFLASH0_CNC_ADDR + 4),
         mem (IFLASH0_CNC_ADDR + 8), mem (IFLASH0_CNC_ADDR + 12)]) := by
  refine ⟨rfl, ?_⟩
  simp [FLASHD_ReadUniqueID, h]

/-- Witness for C10: evaluated with a concrete memory (`fun a => a % 251`)
and status trace `[7]` whose only read has the ready bit set. -/
theorem flashd_readUniqueID_spec_witness :
    pollFrdy [7] = some 7 ∧
    FLASHD_ReadUniqueID true (fun a => a % 251) [7] = some (1, [], []) ∧
    FLASHD_ReadUniqueID false (fun a => a % 251) [7] =
      some (0,
        [EEFC_FCR_FKEY_PASSWD ||| SEFC_FCMD_STUI,
         EEFC_FCR_FKEY_PASSWD ||| SEFC_FCMD_SPUI],
        [(fun a => a % 251) IFLASH0_CNC_ADDR, (fun a => a % 251) (IFLASH0_CNC_ADDR + 4),
         (fun a => a % 251) (IFLASH0_CNC_ADDR + 8), (fun a => a % 251) (IFLASH0_CNC_ADDR + 12)]) :=
  ⟨by decide,
   (flashd_readUniqueID_spec (fun a => a % 251) [7] 7 (by decide)).1,
   (flashd_readUniqueID_spec (fun a => a % 251) [7] 7 (by decide)).2⟩

/-! ### Theorems: GPNVM bits (C8) -/

/-- **C8, counterexample.** The claim "for an index whose bit is already
set, `FLASHD_SetGPNVM` issues no hardware command (idempotent no-op,
observable via command count)" is false on the code: `FLASHD_SetGPNVM`
always calls `FLASHD_IsGPNVMSet`, which issues a get-GPNVM-bits command.
At the concrete state with bit 5 set and an empty log, `FLASHD_SetGPNVM`
on index 5 returns 0 but leaves one command in the log. -/
theorem setGPNVM_command_count_counterexample :
    (5 : Nat) < GPNVM_NUM_MAX ∧
    (GpnvmState.mk 32 0 []).bits.testBit 5 = true ∧
    (FLASHD_SetGPNVM (GpnvmState.mk 32 0 []) 5).2 = 0 ∧
    (FLASHD_SetGPNVM (GpnvmState.mk 32 0 []) 5).1.log = [(SEFC_FCMD_GGPB, 0)] ∧
    (FLASHD_SetGPNVM (GpnvmState.mk 32 0 []) 5).1.log.length ≠ 0 := by
  refine ⟨by decide, by decide, by decide, by decide, by decide⟩

/-- Testing a bit through the mask `1 <<< i` agrees with `Nat.testBit`:
the masked value is zero exactly when the bit is clear. -/
theorem and_shift_eq_zero_iff (x i : Nat) :
    x &&& (1 <<< i) = 0 ↔ x.testBit i = false := by
  rw [Nat.one_shiftLeft, Nat.and_two_pow]
  rcases h : x.testBit i <;> simp [h, Nat.pos_iff_ne_zero, Nat.pow_eq_zero]

/-- Testing a bit through the mask `1 <<< i` agrees with `Nat.testBit`:
the masked value is non-zero exactly when the bit is set. -/
theorem and_shift_ne_zero_iff (x i : Nat) :
    x &&& (1 <<< i) ≠ 0 ↔ x.testBit i = true := by
  rw [Ne, and_shift_eq_zero_iff]
  rcases h : x.testBit i <;> simp [h]

/-- **C8, amended.** For every GPNVM index below `GPNVM_NUM_MAX` whose bit
is already set, `FLASHD_SetGPNVM` issues no *set-GPNVM-bit* command — its
only hardware command is the get-GPNVM-bits query made to test the bit —
and returns 0; when the bit is clear it issues set-GPNVM-bit with the
index as argument.  `FLASHD_SetGPNVM` followed by `FLASHD_IsGPNVMSet` on
the same index returns 1, and `FLASHD_ClearGPNVM` followed by
`FLASHD_IsGPNVMSet` returns 0. -/
theorem gpnvm_set_clear_spec (st : GpnvmState) (idx : Nat) (hidx : idx < GPNVM_NUM_MAX) :
    (st.bits.testBit idx = true →
      (FLASHD_SetGPNVM st idx).2 = 0 ∧
      (FLASHD_SetGPNVM st idx).1.log = st.log ++ [(SEFC_FCMD_GGPB, 0)]) ∧
    (st.bits.testBit idx = false →
      (FLASHD_SetGPNVM st idx).1.log
        = st.log ++ [(SEFC_FCMD_GGPB, 0), (SEFC_FCMD_SGPB, idx)]) ∧
    (FLASHD_IsGPNVMSet (FLASHD_SetGPNVM st idx).1 idx).2 = 1 ∧
    (FLASHD_IsGPNVMSet (FLASHD_ClearGPNVM st idx).1 idx).2 = 0 := by
  have hset : ∀ b : Nat, (b ||| (1 <<< idx)).testBit idx = true := by
    intro b
    rw [Nat.one_shiftLeft, Nat.testBit_or, Nat.testBit_two_pow_self]
    simp
  refine ⟨?_, ?_, ?_, ?_⟩
  · intro hbit
    have hne : st.bits &&& (1 <<< idx) ≠ 0 := (and_shift_ne_zero_iff _ _).mpr hbit
    simp [FLASHD_SetGPNVM, FLASHD_IsGPNVMSet, gpnvmPerform,
      SEFC_FCMD_GGPB, SEFC_FCMD_SGPB, SEFC_FCMD_CGPB, hne]
  · intro hbit
    have heq : st.bits &&& (1 <<< idx) = 0 := (and_shift_eq_zero_iff _ _).mpr hbit
    simp [FLASHD_SetGPNVM, FLASHD_IsGPNVMSet, gpnvmPerform,
      SEFC_FCMD_GGPB, SEFC_FCMD_SGPB, SEFC_FCMD_CGPB, heq]
  · by_cases hbit : st.bits.testBit idx = true
    · have hne : st.bits &&& (1 <<< idx) ≠ 0 := (and_shift_ne_zero_iff _ _).mpr hbit
      simp [FLASHD_SetGPNVM, FLASHD_IsGPNVMSet, gpnvmPerform,
        SEFC_FCMD_GGPB, SEFC_FCMD_SGPB, SEFC_FCMD_CGPB, hne]
    · have heq : st.bits &&& (1 <<< idx) = 0 := by
        rw [and_shift_eq_zero_iff]
        exact Bool.not_eq_true _ ▸ hbit
      have hres : (st.bits ||| (1 <<< idx)) &&& (1 <<< idx) ≠ 0 :=
        (and_shift_ne_zero_iff _ _).mpr (hset st.bits)
      simp [FLASHD_SetGPNVM, FLASHD_IsGPNVMSet, gpnvmPerform,
        SEFC_FCMD_GGPB, SEFC_FCMD_SGPB, SEFC_FCMD_CGPB, heq, hres]
  · by_cases hbit : st.bits.testBit idx = true
    · have hne : st.bits &&& (1 <<< idx) ≠ 0 := (and_shift_ne_zero_iff _ _).mpr hbit
      have hcleared : ((st.bits ^^^ (1 <<< idx)).testBit idx) = false := by
        rw [Nat.one_shiftLeft, Nat.testBit_xor, Nat.testBit_two_pow_self, hbit]
        rfl
      have hz : (st.bits ^^^ (1 <<< idx)) &&& (1 <<< idx) = 0 :=
        (and_shift_eq_zero_iff _ _).mpr hcleared
      simp [FLASHD_ClearGPNVM, FLASHD_IsGPNVMSet, gpnvmPerform,
        SEFC_FCMD_GGPB, SEFC_FCMD_SGPB, SEFC_FCMD_CGPB, hne, hbit, hz]
    · have heq : st.bits &&& (1 <<< idx) = 0 := by
        rw [and_shift_eq_zero_iff]
        exact Bool.not_eq_true _ ▸ hbit
      simp [FLASHD_ClearGPNVM, FLASHD_IsGPNVMSet, gpnvmPerform,
        SEFC_FCMD_GGPB, SEFC_FCMD_SGPB, SEFC_FCMD_CGPB, heq]

/-- Witness for C8 (amended): evaluated at the concrete state with bit
word `0b100000` (bit 5 set) and index 5. -/
theorem gpnvm_set_clear_spec_witness :
    (5 : Nat) < GPNVM_NUM_MAX ∧
    (FLASHD_IsGPNVMSet (FLASHD_SetGPNVM (GpnvmState.mk 32 0 []) 5).1 5).2 = 1 ∧
    (FLASHD_IsGPNVMSet (FLASHD_ClearGPNVM (GpnvmState.mk 32 0 []) 5).1 5).2 = 0 :=
  ⟨by decide,
   (gpnvm_set_clear_spec (GpnvmState.mk 32 0 []) 5 (by decide)).2.2.1,
   (gpnvm_set_clear_spec (GpnvmState.mk 32 0 []) 5 (by decide)).2.2.2⟩

end FlashAlgo
